import Mathlib

/-!
Shallow embedding of the ReAct analytics control loop from
`src/langgraph/flows/react_analytics_flow.py`, together with proofs about its
parser, step executor, continuation rule and session-context updater.

External effects (the LLM call `llm.invoke`, the async tool calls
`tool.ainvoke`, `json.loads`, `json.dumps`, `datetime.now`) are modelled as
oracle parameters: a run is a pure function of the oracle bundle.
-/

namespace IimsAgent

/-! ## Python string primitives

Character-level models of the Python `str` operations the flow uses
(`.strip()`, `.lower()`, `.startswith`, substring search as performed by
`re.search` on literal patterns). -/

/-- Characters stripped by Python `str.strip()` (whitespace per `str.isspace`).
The ASCII range plus the common Unicode space code points. -/
def pyIsSpace (c : Char) : Bool :=
  c.val == 9 || c.val == 10 || c.val == 11 || c.val == 12 || c.val == 13 ||
  c.val == 28 || c.val == 29 || c.val == 30 || c.val == 31 || c.val == 32 ||
  c.val == 133 || c.val == 160 || c.val == 0x1680 ||
  (0x2000 ≤ c.val && c.val ≤ 0x200A) ||
  c.val == 0x2028 || c.val == 0x2029 || c.val == 0x202F ||
  c.val == 0x205F || c.val == 0x3000

/-- Python `str.strip()` on a character list. -/
def stripChars (cs : List Char) : List Char :=
  ((cs.dropWhile pyIsSpace).reverse.dropWhile pyIsSpace).reverse

/-- Python `str.lower()` (ASCII case folding, which is faithful for the
comparisons against `"n/a"`, `"none"` and `""` made by the parser). -/
def lowerChars (cs : List Char) : List Char :=
  cs.map Char.toLower

/-- Index of the first occurrence of `pat` in `cs`, as found by `str.find` /
`re.search` on a literal pattern. -/
def findSub (pat : List Char) : List Char → Option Nat
  | [] => if pat.isPrefixOf ([] : List Char) then some 0 else none
  | c :: rest =>
    if pat.isPrefixOf (c :: rest) then some 0
    else (findSub pat rest).map (· + 1)

/-- Python `str.startswith(pre)`. -/
def pyStartsWith (pre s : String) : Bool :=
  pre.data.isPrefixOf s.data

/-! ## JSON values

`json.loads` and the Python-side JSON values are external to the loop; the
loop only threads them through.  `JsonVal` is the value universe and every
place the source calls `json.loads` takes the parse function as an oracle
`jl : String → Option JsonObj`. -/

inductive JsonVal : Type where
  | str : String → JsonVal
  | num : Int → JsonVal
  | bool : Bool → JsonVal
  | null : JsonVal
  | arr : List JsonVal → JsonVal
  | obj : List (String × JsonVal) → JsonVal

/-- A parsed JSON object (Python `dict`), as produced by `json.loads` on a
`{...}` block. -/
abbrev JsonObj := List (String × JsonVal)

/-! ## The response parser

`react_reasoning_step` (lines 432-456 of the source) extracts the
`{thought, action, action_input}` triple from the raw model text with three
independent `re.search` calls:

  - `Thought:\s*(.*?)(?=Action:|$)` with `re.DOTALL`, then `.strip()`;
  - `Action:\s*(.*?)(?=Action Input:|$)` with `re.DOTALL`, then `.strip()`;
  - `Action Input:\s*(.*?)$` with `re.DOTALL`, then `.strip()`.

Because the captured group is stripped afterwards, the greedy `\s*` and the
position where `$` matches (end of text, or just before a final newline) do
not affect the result, and each regex reduces to: take the text from the end
of the first occurrence of the marker up to the first occurrence of the stop
marker at or after that point (or the end of the text), and strip it.  The
stop markers start with a non-whitespace character, so no occurrence can
begin inside the whitespace run consumed by `\s*`. -/

def thoughtMarker : List Char := "Thought:".data

def actionMarker : List Char := "Action:".data

def actionInputMarker : List Char := "Action Input:".data

/-- Stripped text between the end of the first occurrence of `pat` and the
first occurrence of `stop` at or after it (or the end); `none` when `pat`
does not occur. -/
def segmentAfter (pat stop cs : List Char) : Option (List Char) :=
  match findSub pat cs with
  | none => none
  | some i =>
    let after := cs.drop (i + pat.length)
    match findSub stop after with
    | some j => some (stripChars (after.take j))
    | none => some (stripChars after)

/-- Stripped text after the end of the first occurrence of `pat`; `none` when
`pat` does not occur. -/
def tailAfter (pat cs : List Char) : Option (List Char) :=
  (findSub pat cs).map (fun i => stripChars (cs.drop (i + pat.length)))

/-- Index of the last occurrence of character `c` in `cs`. -/
def lastIndexOf (c : Char) (cs : List Char) : Option Nat :=
  match cs.reverse.indexOf? c with
  | none => none
  | some k => some (cs.length - 1 - k)

/-- The substring matched by the greedy `re.search(r'\x7b.*\x7d', text,
re.DOTALL)`: from the first opening brace to the last closing brace, provided
the latter comes after the former. -/
def braceBlock (cs : List Char) : Option (List Char) :=
  match cs.indexOf? '\x7b', lastIndexOf '\x7d' cs with
  | some i, some j => if i < j then some ((cs.drop i).take (j - i + 1)) else none
  | some _, none => none
  | none, _ => none

/-- The `action_input` extraction of `react_reasoning_step` (lines 441-456):
the stripped tail after `Action Input:`; `[]` when the marker is absent, when
the tail case-insensitively equals `n/a`, `none` or the empty string, when no
`{...}` block is found, and when `json.loads` (the oracle `jl`) fails on the
block. -/
def parseActionInput (jl : String → Option JsonObj) (cs : List Char) : JsonObj :=
  match tailAfter actionInputMarker cs with
  | none => []
  | some seg =>
    if lowerChars seg ∈ (["n/a".data, "none".data, ([] : List Char)] : List (List Char)) then []
    else
      match braceBlock seg with
      | none => []
      | some block =>
        match jl (String.mk block) with
        | some o => o
        | none => []

/-- The parsed `{thought, action, action_input}` triple. -/
structure ParsedReact where
  thought : String
  action : String
  action_input : JsonObj

/-- The response parser of `react_reasoning_step` (lines 432-456): total on
every input string, with defaults `"No clear thought provided"`,
`"Final Answer"` and `{}`. -/
def parseReactText (jl : String → Option JsonObj) (text : String) : ParsedReact :=
  let cs := text.data
  let thought :=
    match segmentAfter thoughtMarker actionMarker cs with
    | some seg => String.mk seg
    | none => "No clear thought provided"
  let action :=
    match segmentAfter actionMarker actionInputMarker cs with
    | some seg => String.mk seg
    | none => "Final Answer"
  ⟨thought, action, parseActionInput jl cs⟩

/-! ## Data model

`ReasoningStep` and `ReActState` mirror the dictionaries of the source
(`reasoning_step` built at lines 505-512, and the `ReActState` class).
`session_id` and `conversation_history` are carried by the Python state but
never read by the loop (the conversation history is fetched at line 371 and
then unused), so they are omitted.  Session-context values are modelled by
`PyVal`, a universe for the Python values stored in the context dict. -/

inductive PyVal : Type where
  | str : String → PyVal
  | nat : Nat → PyVal
  | bool : Bool → PyVal
  | list : List PyVal → PyVal
  | dict : List (String × PyVal) → PyVal

/-- One entry of `reasoning_history` (source lines 505-512). -/
structure ReasoningStep where
  iteration : Nat
  thought : String
  action : String
  action_input : JsonObj
  observation : String
  timestamp : String

/-- The `ReActState` threaded through the graph. -/
structure ReActState where
  user_message : String
  thought : String
  action : String
  action_input : JsonObj
  observation : String
  reasoning_history : List ReasoningStep
  iteration_count : Nat
  max_iterations : Nat
  should_continue : Bool
  final_response : String
  session_context : List (String × PyVal)

/-! ## Oracles for the external effects -/

/-- Outcome of one `llm.invoke` call: the `.content` text of the response, or
the message of an exception raised by the call. -/
inductive ModelResult : Type where
  | ok : String → ModelResult
  | exn : String → ModelResult

/-- Outcome of one `await tool.ainvoke(action_input)` call: `ok dump` carries
`json.dumps(result, indent=2)` for a successful result, `exn msg` the `str(e)`
of a raised exception. -/
inductive ToolResult : Type where
  | ok : String → ToolResult
  | exn : String → ToolResult

/-- The oracle bundle for one run: the reasoning-step model call and tool
call and `datetime.now()` per loop iteration, the finalizer model call, the
context-update timestamp, `json.loads`, and the Python test
`"product_name" in str(result_data)`. -/
structure Oracles where
  model : Nat → ModelResult
  tool : Nat → String → JsonObj → ToolResult
  stepTime : Nat → String
  finalModel : ModelResult
  ctxTime : String
  jl : String → Option JsonObj
  hasPN : JsonObj → Bool

/-! ## The tool registry

The keys of `AVAILABLE_TOOLS` (source lines 61-102), in dict insertion
order.  The registry maps each name to an external async callable; the loop
only consults the key set, so the callables live in the tool oracle. -/

def availableToolNames : List String :=
  ["get_inventory_status", "check_stock_alerts", "analyze_inventory_by_product",
   "get_expiry_alerts", "analyze_sales_data", "get_product_sales_velocity",
   "forecast_sales", "analyze_seasonal_trends", "compare_periods",
   "analyze_growth_drivers", "analyze_product_performance",
   "get_all_cookbook_items", "get_recipe_details", "analyze_menu_profitability",
   "get_wastage_summary", "analyze_wastage_by_product", "track_wastage_trends",
   "get_tenant_information", "analyze_product_catalog", "get_location_overview",
   "get_batch_history", "generate_chart_data", "create_dashboard_summary",
   "check_backend_status", "get_available_endpoints"]

/-- The Python `f"{list(AVAILABLE_TOOLS.keys())}"` interpolation used in the
unknown-action observation (source line 502). -/
def availableToolsRepr : String :=
  "[" ++ String.intercalate ", " (availableToolNames.map (fun n => "'" ++ n ++ "'")) ++ "]"

/-! ## Graph nodes -/

/-- `initialize_react_state` (source lines 353-363). -/
def initialize_react_state (s : ReActState) : ReActState :=
  { s with
    reasoning_history := []
    iteration_count := 0
    max_iterations := 5
    should_continue := true
    thought := ""
    action := ""
    action_input := []
    observation := "" }

/-- `react_reasoning_step` (source lines 365-471): invoke the model (oracle
`m`), parse the triple, and set `should_continue` from the action and the
iteration count read at the top of the function (the value before this
iteration's executor increment).  On a model exception the step behaves as a
`Final Answer` with an explanatory thought. -/
def react_reasoning_step (jl : String → Option JsonObj) (m : ModelResult)
    (s : ReActState) : ReActState :=
  match m with
  | .ok text =>
    let p := parseReactText jl text
    { s with
      thought := p.thought
      action := p.action
      action_input := p.action_input
      should_continue :=
        (p.action != "Final Answer") && decide (s.iteration_count < s.max_iterations) }
  | .exn e =>
    { s with
      thought := "Error in reasoning: " ++ e
      action := "Final Answer"
      action_input := []
      should_continue := false }

/-- `react_action_step` (source lines 473-521): on `Final Answer`, set the
observation and stop without touching history or the counter; otherwise
execute the registered tool (oracle `tool`), or produce the unknown-action
message, then append the timestamped `ReasoningStep` and increment
`iteration_count`.  The Python `if action_input: ... else: await
tool.ainvoke(\x7b\x7d)` passes the same (empty) mapping in both branches.
The observation of the non-`Final Answer` branch (source lines 487-502) is
split out as `executorObservation`: the dumped tool result, the
caught-exception message, or the unknown-action message. -/
def executorObservation (tool : String → JsonObj → ToolResult) (s : ReActState) : String :=
  if s.action ∈ availableToolNames then
    match tool s.action s.action_input with
    | .ok dump => dump
    | .exn e => "Error executing " ++ s.action ++ ": " ++ e
  else
    "Unknown action: " ++ s.action ++ ". Available actions: " ++ availableToolsRepr

def react_action_step (tool : String → JsonObj → ToolResult) (now : String)
    (s : ReActState) : ReActState :=
  if s.action = "Final Answer" then
    { s with observation := "Ready to provide final answer", should_continue := false }
  else
    let obs := executorObservation tool s
    let step : ReasoningStep :=
      { iteration := s.iteration_count + 1
        thought := s.thought
        action := s.action
        action_input := s.action_input
        observation := obs
        timestamp := now }
    { s with
      observation := obs
      reasoning_history := s.reasoning_history ++ [step]
      iteration_count := s.iteration_count + 1 }

/-- Target of the conditional edge out of the action node. -/
inductive RouteTarget : Type where
  | reasoning : RouteTarget
  | final_response : RouteTarget
deriving DecidableEq

/-- `should_continue_reasoning` (source lines 523-527). -/
def should_continue_reasoning (s : ReActState) : RouteTarget :=
  if s.should_continue then .reasoning else .final_response

/-- `generate_final_response` (source lines 1128-1182): one model call (the
prompt is built from the full history; its text only reaches the model
oracle, which may behave arbitrarily); on an exception the deterministic
apology string is produced instead. -/
def generate_final_response (m : ModelResult) (s : ReActState) : ReActState :=
  match m with
  | .ok content => { s with final_response := content }
  | .exn e =>
    { s with final_response :=
        "I analyzed your request using multiple reasoning steps, but encountered an error generating the final response: "
        ++ e ++ ". Please try rephrasing your question." }

/-! ## Session context updater -/

/-- The `last_analyzed_product` scan of `update_react_session_context`
(source lines 1199-1210): for each step whose observation is non-empty and
does not start with `Error`, try `json.loads`; when the parsed value passes
the `"product_name" in str(result_data)` test, record that step's
`iteration` (a later match overwrites an earlier one). -/
def productScan (jl : String → Option JsonObj) (hasPN : JsonObj → Bool)
    (hist : List ReasoningStep) : Option Nat :=
  hist.foldl
    (fun acc step =>
      if step.observation != "" && !(pyStartsWith "Error" step.observation) then
        match jl step.observation with
        | some data => if hasPN data then some step.iteration else acc
        | none => acc
      else acc)
    none

/-- The `session_updates` dict built by `update_react_session_context`
(source lines 1190-1210). -/
def reactSessionUpdates (jl : String → Option JsonObj) (hasPN : JsonObj → Bool)
    (now : String) (hist : List ReasoningStep) (count : Nat) :
    List (String × PyVal) :=
  let base : List (String × PyVal) :=
    [("last_react_reasoning", PyVal.dict
      [("iterations", PyVal.nat count),
       ("tools_used", PyVal.list
         (((hist.filter (fun st => st.action != "Final Answer")).map
            (fun st => PyVal.str st.action)))),
       ("reasoning_steps", PyVal.nat hist.length),
       ("completed_at", PyVal.str now)])]
  match productScan jl hasPN hist with
  | some it =>
    base ++ [("last_analyzed_product", PyVal.dict
      [("from_react", PyVal.bool true), ("reasoning_step", PyVal.nat it)])]
  | none => base

/-- `update_react_session_context` (source lines 1184-1217): builds
`session_updates` from the reasoning history and the iteration count and
assigns it to `state["session_context"]`, replacing the incoming value. -/
def update_react_session_context (jl : String → Option JsonObj)
    (hasPN : JsonObj → Bool) (now : String) (s : ReActState) : ReActState :=
  { s with session_context := reactSessionUpdates jl hasPN now s.reasoning_history s.iteration_count }

/-! ## The graph

`create_react_analytics_graph` (source lines 1220-1254) wires
START → initialize → reasoning → action, a conditional edge from action back
to reasoning or on to final_response (driven by `should_continue_reasoning`),
then final_response → update_context → END. -/

/-- One loop body: the reasoning node followed by the action node, with the
iteration-indexed oracles. -/
def reactLoopBody (O : Oracles) (k : Nat) (s : ReActState) : ReActState :=
  react_action_step (O.tool k) (O.stepTime k) (react_reasoning_step O.jl (O.model k) s)

/-- The reasoning/action loop: run bodies while `should_continue` holds after
the action node, for at most `fuel` bodies.  The graph itself is unbounded;
`runReactLoop_fuel_stable` below shows `max_iterations + 1` bodies always
suffice, so the fuel is a modelling device only. -/
def runReactLoop (O : Oracles) : Nat → Nat → ReActState → ReActState
  | 0, _, s => s
  | fuel + 1, k, s =>
    let s2 := reactLoopBody O k s
    if s2.should_continue then runReactLoop O fuel (k + 1) s2 else s2

/-- The post-action states of every executed loop body, in order (the state
observed after each Step Executor call). -/
def runReactLoopTrace (O : Oracles) : Nat → Nat → ReActState → List ReActState
  | 0, _, _ => []
  | fuel + 1, k, s =>
    let s2 := reactLoopBody O k s
    s2 :: (if s2.should_continue then runReactLoopTrace O fuel (k + 1) s2 else [])

/-- The whole compiled graph on one input state. -/
def runReactGraph (O : Oracles) (s0 : ReActState) : ReActState :=
  let s1 := initialize_react_state s0
  let s2 := runReactLoop O (s1.max_iterations + 1) 0 s1
  update_react_session_context O.jl O.hasPN O.ctxTime (generate_final_response O.finalModel s2)

/-- The post-executor states of the whole run. -/
def reactRunTrace (O : Oracles) (s0 : ReActState) : List ReActState :=
  let s1 := initialize_react_state s0
  runReactLoopTrace O (s1.max_iterations + 1) 0 s1

/-! ## Run output -/

/-- The result dict of `process_user_message_react` (source lines
1293-1306).  The graph invocation in the model cannot raise, so the
`success=False` envelope of lines 1308-1317 is unreachable here. -/
structure RunOutput where
  success : Bool
  response : String
  reasoning_trace : List ReasoningStep
  iterations : Nat
  tools_used : List String
  session_context : List (String × PyVal)
  reasoning_steps : Nat
  max_iterations : Nat

/-- `process_user_message_react` (source lines 1259-1317): run the graph on
the initial state and assemble the output dict.  The fields of the initial
state that `initialize_react_state` overwrites are given arbitrary default
values here, as in the Python initial dict which simply omits them. -/
def process_user_message_react (O : Oracles) (message : String)
    (session_context : List (String × PyVal)) : RunOutput :=
  let s0 : ReActState :=
    { user_message := message
      thought := ""
      action := ""
      action_input := []
      observation := ""
      reasoning_history := []
      iteration_count := 0
      max_iterations := 5
      should_continue := false
      final_response := ""
      session_context := session_context }
  let r := runReactGraph O s0
  { success := true
    response := r.final_response
    reasoning_trace := r.reasoning_history
    iterations := r.iteration_count
    tools_used :=
      (r.reasoning_history.filter (fun st => st.action != "Final Answer")).map
        (fun st => st.action)
    session_context := r.session_context
    reasoning_steps := r.reasoning_history.length
    max_iterations := r.max_iterations }

/-! ## Concrete instances

A `json.loads` oracle that always fails (never consulted on the `N/A`
inputs used below), and a concrete run in which the model selects the
registered tool `check_stock_alerts` on every iteration. -/

def jlNone : String → Option JsonObj := fun _ => none

/-- A model response selecting a valid registered tool with `N/A` input. -/
def stockModelText : String :=
  "Thought: need data\nAction: check_stock_alerts\nAction Input: N/A"

/-- Oracles for a run whose model always selects `check_stock_alerts`; the
tool result records the iteration index at which the tool oracle was
consulted. -/
def stockOracles : Oracles :=
  { model := fun _ => .ok stockModelText
    tool := fun k _ _ => .ok ("tool result " ++ toString k)
    stepTime := fun k => "time " ++ toString k
    finalModel := .ok "final text"
    ctxTime := "context time"
    jl := jlNone
    hasPN := fun _ => false }

/-- An input state with a non-trivial incoming session context. -/
def stockState0 : ReActState :=
  { user_message := "What stock needs attention?"
    thought := ""
    action := ""
    action_input := []
    observation := ""
    reasoning_history := []
    iteration_count := 0
    max_iterations := 0
    should_continue := false
    final_response := ""
    session_context := [("prior", PyVal.str "v")] }

/-- A state whose parsed action is the sentinel, as produced by a
`Final Answer` model response. -/
def finalAnswerState : ReActState :=
  { user_message := "What stock needs attention?"
    thought := "I have enough information"
    action := "Final Answer"
    action_input := []
    observation := ""
    reasoning_history := []
    iteration_count := 0
    max_iterations := 5
    should_continue := true
    final_response := ""
    session_context := [] }

/-- A state whose parsed action is a registered tool. -/
def registeredActionState : ReActState :=
  { user_message := "What stock needs attention?"
    thought := "need stock levels"
    action := "check_stock_alerts"
    action_input := []
    observation := ""
    reasoning_history := []
    iteration_count := 0
    max_iterations := 5
    should_continue := true
    final_response := ""
    session_context := [] }

/-- A state whose parsed action is a hallucinated, unregistered tool name. -/
def unknownActionState : ReActState :=
  { registeredActionState with action := "made_up_tool" }

/-- Oracles whose reasoning model call raises on every iteration and whose
finalizer model call raises as well. -/
def failingModelOracles : Oracles :=
  { stockOracles with
    model := fun _ => .exn "rate limit exceeded"
    finalModel := .exn "connection reset" }

/-! ## Helper lemmas -/

theorem findSub_eq_none_iff (pat : List Char) :
    ∀ cs, findSub pat cs = none ↔ ¬ pat <:+: cs := by
  intro cs
  induction cs with
  | nil =>
    by_cases h : pat.isPrefixOf ([] : List Char)
    · have hp : pat <+: ([] : List Char) := List.isPrefixOf_iff_prefix.mp h
      simp [findSub, h, hp.isInfix]
    · have hp : ¬ pat <+: ([] : List Char) := fun hh => h (List.isPrefixOf_iff_prefix.mpr hh)
      have hni : ¬ pat <:+: ([] : List Char) := fun hinf =>
        hp (List.infix_nil.mp hinf ▸ List.nil_prefix)
      simp [findSub, h, hni]
  | cons c rest ih =>
    by_cases h : pat.isPrefixOf (c :: rest)
    · have hp : pat <+: c :: rest := List.isPrefixOf_iff_prefix.mp h
      simp [findSub, h, hp.isInfix]
    · have hp : ¬ pat <+: c :: rest := fun hh => h (List.isPrefixOf_iff_prefix.mpr hh)
      simp [findSub, h, List.infix_cons_iff, hp, ih]

theorem findSub_some_infix (pat cs : List Char) (i : Nat)
    (h : findSub pat cs = some i) : pat <:+: cs := by
  by_contra hc
  rw [← findSub_eq_none_iff] at hc
  rw [hc] at h
  exact Option.noConfusion h

theorem string_append_ne_empty_of_left (a b : String) (ha : a.data ≠ []) :
    a ++ b ≠ "" := by
  intro h
  have hd : (a ++ b).data = ("" : String).data := congrArg String.data h
  rw [String.data_append] at hd
  simp only [String.data] at hd
  exact ha (List.append_eq_nil.mp hd).1

theorem react_reasoning_step_frame (jl : String → Option JsonObj)
    (m : ModelResult) (s : ReActState) :
    (react_reasoning_step jl m s).iteration_count = s.iteration_count ∧
    (react_reasoning_step jl m s).max_iterations = s.max_iterations ∧
    (react_reasoning_step jl m s).reasoning_history = s.reasoning_history := by
  cases m <;> simp [react_reasoning_step]

theorem react_action_step_max (tool : String → JsonObj → ToolResult)
    (now : String) (s : ReActState) :
    (react_action_step tool now s).max_iterations = s.max_iterations := by
  by_cases h : s.action = "Final Answer" <;> simp [react_action_step, h]

theorem react_action_step_count_le (tool : String → JsonObj → ToolResult)
    (now : String) (s : ReActState) :
    (react_action_step tool now s).iteration_count ≤ s.iteration_count + 1 := by
  by_cases h : s.action = "Final Answer" <;> simp [react_action_step, h]

theorem reactLoopBody_max (O : Oracles) (k : Nat) (s : ReActState) :
    (reactLoopBody O k s).max_iterations = s.max_iterations := by
  rw [reactLoopBody, react_action_step_max]
  exact (react_reasoning_step_frame O.jl (O.model k) s).2.1

theorem reactLoopBody_count_le (O : Oracles) (k : Nat) (s : ReActState) :
    (reactLoopBody O k s).iteration_count ≤ s.iteration_count + 1 := by
  rw [reactLoopBody]
  calc (react_action_step (O.tool k) (O.stepTime k)
          (react_reasoning_step O.jl (O.model k) s)).iteration_count
      ≤ (react_reasoning_step O.jl (O.model k) s).iteration_count + 1 :=
        react_action_step_count_le _ _ _
    _ = s.iteration_count + 1 := by
        rw [(react_reasoning_step_frame O.jl (O.model k) s).1]

theorem reactLoopBody_continue (O : Oracles) (k : Nat) (s : ReActState)
    (h : (reactLoopBody O k s).should_continue = true) :
    (reactLoopBody O k s).iteration_count = s.iteration_count + 1 ∧
    s.iteration_count < s.max_iterations := by
  rw [reactLoopBody] at h ⊢
  cases hm : O.model k with
  | exn e =>
    rw [hm] at h
    simp [react_reasoning_step, react_action_step] at h
  | ok text =>
    rw [hm] at h
    by_cases hFA : (parseReactText O.jl text).action = "Final Answer"
    · simp [react_reasoning_step, react_action_step, hFA] at h
    · have hact : (react_reasoning_step O.jl (.ok text) s).action ≠ "Final Answer" := by
        simp [react_reasoning_step, hFA]
      simp only [react_action_step, if_neg hact] at h ⊢
      simp only [react_reasoning_step] at h ⊢
      simp at h
      exact ⟨trivial, h.2⟩

theorem runReactLoop_bound (O : Oracles) :
    ∀ fuel k s, s.max_iterations < s.iteration_count + fuel →
      s.iteration_count ≤ s.max_iterations →
      (runReactLoop O fuel k s).should_continue = false ∧
      (runReactLoop O fuel k s).iteration_count ≤ s.max_iterations + 1 ∧
      (runReactLoop O fuel k s).max_iterations = s.max_iterations := by
  intro fuel
  induction fuel with
  | zero => intro k s hf hc; omega
  | succ fuel ih =>
    intro k s hf hc
    rw [runReactLoop]
    by_cases hsc : (reactLoopBody O k s).should_continue = true
    · obtain ⟨hcount, hlt⟩ := reactLoopBody_continue O k s hsc
      have hmax := reactLoopBody_max O k s
      simp only [hsc, if_true]
      obtain ⟨h1, h2, h3⟩ := ih (k + 1) (reactLoopBody O k s) (by omega) (by omega)
      exact ⟨h1, by omega, by omega⟩
    · have hsc' : (reactLoopBody O k s).should_continue = false := by
        revert hsc; cases (reactLoopBody O k s).should_continue <;> simp
      simp only [hsc', Bool.false_eq_true, if_false]
      exact ⟨trivial, by have := reactLoopBody_count_le O k s; omega,
             reactLoopBody_max O k s⟩

theorem runReactLoop_fuel_stable (O : Oracles) :
    ∀ fuel extra k s, s.max_iterations < s.iteration_count + fuel →
      s.iteration_count ≤ s.max_iterations →
      runReactLoop O (fuel + extra) k s = runReactLoop O fuel k s := by
  intro fuel
  induction fuel with
  | zero => intro extra k s hf hc; omega
  | succ fuel ih =>
    intro extra k s hf hc
    have hadd : fuel + 1 + extra = (fuel + extra) + 1 := by omega
    rw [hadd, runReactLoop, runReactLoop]
    by_cases hsc : (reactLoopBody O k s).should_continue = true
    · obtain ⟨hcount, hlt⟩ := reactLoopBody_continue O k s hsc
      have hmax := reactLoopBody_max O k s
      simp only [hsc, if_true]
      exact ih extra (k + 1) (reactLoopBody O k s) (by omega) (by omega)
    · have hsc' : (reactLoopBody O k s).should_continue = false := by
        revert hsc; cases (reactLoopBody O k s).should_continue <;> simp
      simp only [hsc', Bool.false_eq_true, if_false]

theorem reactLoopBody_inv (O : Oracles) (k : Nat) (s : ReActState)
    (h : s.reasoning_history.length = s.iteration_count) :
    (reactLoopBody O k s).reasoning_history.length =
      (reactLoopBody O k s).iteration_count := by
  rw [reactLoopBody]
  obtain ⟨hc, _, hh⟩ := react_reasoning_step_frame O.jl (O.model k) s
  by_cases hFA : (react_reasoning_step O.jl (O.model k) s).action = "Final Answer" <;>
    simp [react_action_step, hFA, hh, hc, h]

theorem runReactLoopTrace_inv (O : Oracles) :
    ∀ fuel k s, s.reasoning_history.length = s.iteration_count →
      ∀ st ∈ runReactLoopTrace O fuel k s,
        st.reasoning_history.length = st.iteration_count := by
  intro fuel
  induction fuel with
  | zero => intro k s _ st hst; simp [runReactLoopTrace] at hst
  | succ fuel ih =>
    intro k s h st hst
    rw [runReactLoopTrace] at hst
    rcases List.mem_cons.mp hst with heq | htail
    · exact heq ▸ reactLoopBody_inv O k s h
    · by_cases hsc : (reactLoopBody O k s).should_continue = true
      · rw [if_pos hsc] at htail
        exact ih (k + 1) (reactLoopBody O k s) (reactLoopBody_inv O k s h) st htail
      · rw [if_neg hsc] at htail
        simp at htail

theorem runReactLoop_inv (O : Oracles) :
    ∀ fuel k s, s.reasoning_history.length = s.iteration_count →
      (runReactLoop O fuel k s).reasoning_history.length =
        (runReactLoop O fuel k s).iteration_count := by
  intro fuel
  induction fuel with
  | zero => intro k s h; exact h
  | succ fuel ih =>
    intro k s h
    rw [runReactLoop]
    by_cases hsc : (reactLoopBody O k s).should_continue = true
    · rw [if_pos hsc]
      exact ih (k + 1) (reactLoopBody O k s) (reactLoopBody_inv O k s h)
    · rw [if_neg hsc]
      exact reactLoopBody_inv O k s h

theorem reactLoopBody_actions (O : Oracles) (k : Nat) (s : ReActState)
    (h : ∀ st ∈ s.reasoning_history, st.action ≠ "Final Answer") :
    ∀ st ∈ (reactLoopBody O k s).reasoning_history, st.action ≠ "Final Answer" := by
  rw [reactLoopBody]
  obtain ⟨_, _, hh⟩ := react_reasoning_step_frame O.jl (O.model k) s
  by_cases hFA : (react_reasoning_step O.jl (O.model k) s).action = "Final Answer"
  · simp only [react_action_step, if_pos hFA]
    simpa [hh] using h
  · simp only [react_action_step, if_neg hFA]
    intro st hst
    simp only [List.mem_append, List.mem_singleton] at hst
    rcases hst with hmem | hstep
    · exact h st (hh ▸ hmem)
    · rw [hstep]
      exact hFA

theorem runReactLoop_actions (O : Oracles) :
    ∀ fuel k s, (∀ st ∈ s.reasoning_history, st.action ≠ "Final Answer") →
      ∀ st ∈ (runReactLoop O fuel k s).reasoning_history,
        st.action ≠ "Final Answer" := by
  intro fuel
  induction fuel with
  | zero => intro k s h; exact h
  | succ fuel ih =>
    intro k s h
    rw [runReactLoop]
    by_cases hsc : (reactLoopBody O k s).should_continue = true
    · rw [if_pos hsc]
      exact ih (k + 1) (reactLoopBody O k s) (reactLoopBody_actions O k s h)
    · rw [if_neg hsc]
      exact reactLoopBody_actions O k s h

theorem generate_final_response_frame (m : ModelResult) (s : ReActState) :
    (generate_final_response m s).should_continue = s.should_continue ∧
    (generate_final_response m s).iteration_count = s.iteration_count ∧
    (generate_final_response m s).reasoning_history = s.reasoning_history ∧
    (generate_final_response m s).max_iterations = s.max_iterations := by
  cases m <;> simp [generate_final_response]

theorem update_react_session_context_frame (jl : String → Option JsonObj)
    (hasPN : JsonObj → Bool) (now : String) (s : ReActState) :
    (update_react_session_context jl hasPN now s).should_continue = s.should_continue ∧
    (update_react_session_context jl hasPN now s).iteration_count = s.iteration_count ∧
    (update_react_session_context jl hasPN now s).reasoning_history = s.reasoning_history ∧
    (update_react_session_context jl hasPN now s).max_iterations = s.max_iterations ∧
    (update_react_session_context jl hasPN now s).final_response = s.final_response := by
  simp [update_react_session_context]

set_option maxRecDepth 4000 in
theorem names_listed_in_repr :
    ∀ n ∈ availableToolNames, n.data <:+: availableToolsRepr.data := by
  have h : ∀ n ∈ availableToolNames,
      (findSub n.data availableToolsRepr.data).isSome = true := by decide
  intro n hn
  obtain ⟨i, hi⟩ := Option.isSome_iff_exists.mp (h n hn)
  exact findSub_some_infix _ _ i hi

/-! ## Claim theorems -/

/-- C1 (amended): for every oracle bundle and input state, the loop stops
with `should_continue = False` after at most `max_iterations + 1 = 6`
executor steps — not `max_iterations = 5`: the continuation predicate is
computed in the reasoning node from the pre-increment iteration count, so
after 5 consecutive valid non-terminal actions `should_continue` is still
True and a 6th reasoning/action step runs.  Extra fuel beyond 6 loop bodies
never changes the run, so the bound holds for the unbounded graph. -/
theorem react_loop_six_step_bound (O : Oracles) (s0 : ReActState) :
    (runReactGraph O s0).should_continue = false ∧
    (runReactGraph O s0).iteration_count ≤ 6 ∧
    (runReactGraph O s0).reasoning_history.length ≤ 6 ∧
    ∀ extra, runReactLoop O (6 + extra) 0 (initialize_react_state s0)
      = runReactLoop O 6 0 (initialize_react_state s0) := by
  have hinit1 : (initialize_react_state s0).max_iterations = 5 := rfl
  have hinit2 : (initialize_react_state s0).iteration_count = 0 := rfl
  have hinit3 : (initialize_react_state s0).reasoning_history = [] := rfl
  obtain ⟨hsc, hcount, hmax⟩ :=
    runReactLoop_bound O ((initialize_react_state s0).max_iterations + 1) 0
      (initialize_react_state s0) (by omega) (by omega)
  have hlen := runReactLoop_inv O ((initialize_react_state s0).max_iterations + 1) 0
    (initialize_react_state s0) (by rw [hinit2, hinit3]; rfl)
  simp only [runReactGraph]
  obtain ⟨hg1, hg2, hg3, _⟩ := generate_final_response_frame O.finalModel
    (runReactLoop O ((initialize_react_state s0).max_iterations + 1) 0
      (initialize_react_state s0))
  obtain ⟨hu1, hu2, hu3, _⟩ := update_react_session_context_frame O.jl O.hasPN O.ctxTime
    (generate_final_response O.finalModel
      (runReactLoop O ((initialize_react_state s0).max_iterations + 1) 0
        (initialize_react_state s0)))
  refine ⟨by rw [hu1, hg1, hsc], by rw [hu2, hg2]; omega,
          by rw [hu3, hg3]; omega, ?_⟩
  intro extra
  have h6 : (6 : Nat) + extra = 6 + extra := rfl
  exact runReactLoop_fuel_stable O 6 extra 0 (initialize_react_state s0)
    (by omega) (by omega)

/-- C1 counterexample: the model selects the valid registered tool
`check_stock_alerts` on every iteration; after 5 executor steps
`should_continue` is still `true` (the claim says the run stops there with
`should_continue = False`), and the full run executes 6 tool calls — the
6th observation is the tool oracle's answer at call index 5. -/
theorem react_sixth_tool_call_executes :
    (runReactLoop stockOracles 5 0 (initialize_react_state stockState0)).should_continue = true ∧
    (runReactGraph stockOracles stockState0).iteration_count = 6 ∧
    ((runReactGraph stockOracles stockState0).reasoning_history.map (fun st => st.action))
      = ["check_stock_alerts", "check_stock_alerts", "check_stock_alerts",
         "check_stock_alerts", "check_stock_alerts", "check_stock_alerts"] ∧
    ((runReactGraph stockOracles stockState0).reasoning_history.map (fun st => st.observation))
      = ["tool result 0", "tool result 1", "tool result 2",
         "tool result 3", "tool result 4", "tool result 5"] := by
  exact ⟨by decide, by decide, by decide, by decide⟩

/-- C2 (amended): an executor call with a non-`Final Answer` action appends
exactly one `ReasoningStep` carrying the current timestamp and increments
`iteration_count` by exactly one; a `Final Answer` call instead sets the
observation to `Ready to provide final answer` and `should_continue` to
False, touching neither the history nor the counter. -/
theorem executor_append_and_increment (tool : String → JsonObj → ToolResult)
    (now : String) (s : ReActState) :
    (react_action_step tool now s).reasoning_history
      = s.reasoning_history ++
        (if s.action = "Final Answer" then []
         else [{ iteration := s.iteration_count + 1, thought := s.thought,
                 action := s.action, action_input := s.action_input,
                 observation := executorObservation tool s, timestamp := now }]) ∧
    (react_action_step tool now s).iteration_count
      = s.iteration_count + (if s.action = "Final Answer" then 0 else 1) ∧
    (react_action_step tool now s).observation
      = (if s.action = "Final Answer" then "Ready to provide final answer"
         else executorObservation tool s) ∧
    (react_action_step tool now s).should_continue
      = (if s.action = "Final Answer" then false else s.should_continue) := by
  by_cases h : s.action = "Final Answer" <;> simp [react_action_step, h]

/-- C2 counterexample: on the sentinel action the executor appends nothing
and does not increment the counter, contradicting the claim that every call
appends one step and increments by one. -/
theorem executor_final_answer_skips_history :
    finalAnswerState.action = "Final Answer" ∧
    finalAnswerState.reasoning_history.length = 0 ∧
    finalAnswerState.iteration_count = 0 ∧
    (react_action_step (fun _ _ => ToolResult.exn "unused") "now" finalAnswerState).reasoning_history.length = 0 ∧
    (react_action_step (fun _ _ => ToolResult.exn "unused") "now" finalAnswerState).iteration_count = 0 := by
  exact ⟨by decide, by decide, by decide, by decide, by decide⟩

/-- C3 (amended): after each executor call,
`should_continue = (action != "Final Answer") && (pre_count < max_iterations)`
where `pre_count` is the iteration count before that call's increment (the
post-increment count of the claim makes the predicate false one step
earlier than the code); this value is exactly what the conditional edge
`should_continue_reasoning` routes on. -/
theorem continuation_uses_preincrement_count (jl : String → Option JsonObj)
    (m : ModelResult) (tool : String → JsonObj → ToolResult) (now : String)
    (s : ReActState) :
    (react_action_step tool now (react_reasoning_step jl m s)).should_continue
      = (((react_action_step tool now (react_reasoning_step jl m s)).action != "Final Answer")
          && decide (s.iteration_count < s.max_iterations)) ∧
    should_continue_reasoning (react_action_step tool now (react_reasoning_step jl m s))
      = (if (react_action_step tool now (react_reasoning_step jl m s)).should_continue
         then RouteTarget.reasoning else RouteTarget.final_response) := by
  refine ⟨?_, rfl⟩
  cases m with
  | exn e => simp [react_reasoning_step, react_action_step]
  | ok text =>
    by_cases hFA : (parseReactText jl text).action = "Final Answer"
    · simp [react_reasoning_step, react_action_step, hFA]
    · have hact : (react_reasoning_step jl (.ok text) s).action ≠ "Final Answer" := by
        simp [react_reasoning_step, hFA]
      simp [react_action_step, if_neg hact, react_reasoning_step, hFA]

/-- C3 counterexample: after the 5th executor call of a run with a model
always selecting a valid tool, the action is non-terminal, the
post-increment count equals `max_iterations = 5`, so the claim's predicate
evaluates to false — yet `should_continue` is true. -/
theorem continuation_postincrement_false :
    (runReactLoop stockOracles 5 0 (initialize_react_state stockState0)).should_continue = true ∧
    (runReactLoop stockOracles 5 0 (initialize_react_state stockState0)).action = "check_stock_alerts" ∧
    (runReactLoop stockOracles 5 0 (initialize_react_state stockState0)).iteration_count = 5 ∧
    (runReactLoop stockOracles 5 0 (initialize_react_state stockState0)).max_iterations = 5 ∧
    (((runReactLoop stockOracles 5 0 (initialize_react_state stockState0)).action != "Final Answer")
       && decide ((runReactLoop stockOracles 5 0 (initialize_react_state stockState0)).iteration_count
            < (runReactLoop stockOracles 5 0 (initialize_react_state stockState0)).max_iterations)) = false := by
  exact ⟨by decide, by decide, by decide, by decide, by decide⟩

/-- C4: after every Step Executor call of every run — every post-action
state in the run's trace — `len(reasoning_history) = iteration_count`. -/
theorem history_length_eq_iteration_count (O : Oracles) (s0 : ReActState) :
    (reactRunTrace O s0).all
      (fun st => st.reasoning_history.length == st.iteration_count) = true := by
  rw [List.all_eq_true]
  intro st hst
  have hst' : st ∈ runReactLoopTrace O ((initialize_react_state s0).max_iterations + 1) 0
      (initialize_react_state s0) := hst
  have := runReactLoopTrace_inv O ((initialize_react_state s0).max_iterations + 1) 0
    (initialize_react_state s0) rfl st hst'
  exact beq_iff_eq.mpr this

/-- C5: the Response Parser is a total function — `parseReactText` is
defined on every input string (empty, truncated or garbage) and always
yields a `ParsedReact` triple, the embedding of the fact that the Python
parser never raises.  Its defaults: when the `Thought:` marker does not
occur in the text the thought is `No clear thought provided`; when the
`Action:` marker does not occur the action is `Final Answer`; and the
action input is the empty mapping whenever the `Action Input:` marker is
absent, or the stripped text after it case-insensitively equals `n/a`,
`none` or the empty string, or that text has no `{...}` block, or
`json.loads` fails on the block. -/
theorem response_parser_totality_and_defaults (jl : String → Option JsonObj)
    (text : String) :
    (¬ thoughtMarker <:+: text.data →
      (parseReactText jl text).thought = "No clear thought provided") ∧
    (¬ actionMarker <:+: text.data →
      (parseReactText jl text).action = "Final Answer") ∧
    (findSub actionInputMarker text.data = none →
      (parseReactText jl text).action_input = []) ∧
    (∀ i, findSub actionInputMarker text.data = some i →
      (lowerChars (stripChars (text.data.drop (i + actionInputMarker.length)))
          ∈ (["n/a".data, "none".data, ([] : List Char)] : List (List Char)) ∨
       braceBlock (stripChars (text.data.drop (i + actionInputMarker.length))) = none ∨
       (∀ b, braceBlock (stripChars (text.data.drop (i + actionInputMarker.length))) = some b →
          jl (String.mk b) = none)) →
      (parseReactText jl text).action_input = []) := by
  refine ⟨?_, ?_, ?_, ?_⟩
  · intro h
    have hn : findSub thoughtMarker text.data = none := (findSub_eq_none_iff _ _).mpr h
    simp [parseReactText, segmentAfter, hn]
  · intro h
    have hn : findSub actionMarker text.data = none := (findSub_eq_none_iff _ _).mpr h
    simp [parseReactText, segmentAfter, hn]
  · intro h
    simp [parseReactText, parseActionInput, tailAfter, h]
  · intro i hi hdis
    simp only [parseReactText, parseActionInput, tailAfter, hi, Option.map_some']
    by_cases hmem : lowerChars (stripChars (text.data.drop (i + actionInputMarker.length)))
        ∈ (["n/a".data, "none".data, ([] : List Char)] : List (List Char))
    · simp [hmem]
    · rcases hdis with hm | hb | hj
      · exact absurd hm hmem
      · simp [hmem, hb]
      · rw [if_neg hmem]
        cases hbb : braceBlock (stripChars (text.data.drop (i + actionInputMarker.length))) with
        | none => simp
        | some b => simp [hj b hbb]

/-- C5 witness: the empty input takes all three defaults. -/
theorem response_parser_defaults_witness :
    (parseReactText jlNone "").thought = "No clear thought provided" ∧
    (parseReactText jlNone "").action = "Final Answer" ∧
    (parseReactText jlNone "").action_input = [] := by
  obtain ⟨h1, h2, h3, _⟩ := response_parser_totality_and_defaults jlNone ""
  exact ⟨h1 ((findSub_eq_none_iff thoughtMarker "".data).mp (by decide)),
         h2 ((findSub_eq_none_iff actionMarker "".data).mp (by decide)),
         h3 (by decide)⟩

/-- C6: for a registered action whose tool call raises, the executor
produces the non-empty observation `Error executing <action>: <error>`
(containing both the action name and the error text), appends exactly that
timestamped step, increments `iteration_count` by one, leaves
`should_continue` untouched, and the exception does not propagate (the
step function is total and returns normally). -/
theorem tool_failure_isolated (tool : String → JsonObj → ToolResult)
    (now : String) (s : ReActState) (e : String)
    (hreg : s.action ∈ availableToolNames)
    (hexn : tool s.action s.action_input = .exn e) :
    (react_action_step tool now s).observation
      = "Error executing " ++ s.action ++ ": " ++ e ∧
    (react_action_step tool now s).observation ≠ "" ∧
    s.action.data <:+: (react_action_step tool now s).observation.data ∧
    e.data <:+: (react_action_step tool now s).observation.data ∧
    (react_action_step tool now s).iteration_count = s.iteration_count + 1 ∧
    (react_action_step tool now s).reasoning_history
      = s.reasoning_history ++
        [{ iteration := s.iteration_count + 1, thought := s.thought,
           action := s.action, action_input := s.action_input,
           observation := "Error executing " ++ s.action ++ ": " ++ e,
           timestamp := now }] ∧
    (react_action_step tool now s).should_continue = s.should_continue := by
  have hFA : s.action ≠ "Final Answer" := by
    intro hh
    rw [hh] at hreg
    exact absurd hreg (by decide)
  have hobs : executorObservation tool s = "Error executing " ++ s.action ++ ": " ++ e := by
    simp [executorObservation, hreg, hexn]
  have h1 : (react_action_step tool now s).observation
      = "Error executing " ++ s.action ++ ": " ++ e := by
    simp [react_action_step, hFA, hobs]
  refine ⟨h1, ?_, ?_, ?_, ?_, ?_, ?_⟩
  · rw [h1]
    intro hh
    have hd := congrArg String.data hh
    simp [String.data_append, List.append_eq_nil] at hd
  · rw [h1]
    refine ⟨"Error executing ".data, ": ".data ++ e.data, ?_⟩
    simp [String.data_append]
  · rw [h1]
    have : (("Error executing " ++ s.action ++ ": ") ++ e).data
        = ("Error executing " ++ s.action ++ ": ").data ++ e.data := String.data_append _ _
    rw [this]
    exact (List.suffix_append _ _).isInfix
  · simp [react_action_step, hFA]
  · simp [react_action_step, hFA, hobs]
  · simp [react_action_step, hFA]

/-- C6 witness: a raised tool call on `check_stock_alerts` is converted to
the error observation and the step is recorded. -/
theorem tool_failure_isolated_witness :
    (react_action_step (fun _ _ => ToolResult.exn "boom") "now" registeredActionState).observation
      = "Error executing check_stock_alerts: boom" ∧
    (react_action_step (fun _ _ => ToolResult.exn "boom") "now" registeredActionState).iteration_count = 1 ∧
    (react_action_step (fun _ _ => ToolResult.exn "boom") "now" registeredActionState).should_continue = true := by
  obtain ⟨h1, _, _, _, h5, _, h7⟩ :=
    tool_failure_isolated (fun _ _ => ToolResult.exn "boom") "now" registeredActionState
      "boom" (by decide) rfl
  exact ⟨by rw [h1]; rfl, by rw [h5]; rfl, by rw [h7]; rfl⟩

/-- C7: for an action that is neither the sentinel nor a registry key, the
executor invokes no tool (the result does not depend on the tool oracle),
produces the unknown-action observation listing every registered tool name,
leaves `should_continue` untouched, and still counts the step. -/
theorem unknown_action_self_corrects (tool tool2 : String → JsonObj → ToolResult)
    (now : String) (s : ReActState)
    (hFA : s.action ≠ "Final Answer") (hreg : s.action ∉ availableToolNames) :
    (react_action_step tool now s).observation
      = "Unknown action: " ++ s.action ++ ". Available actions: " ++ availableToolsRepr ∧
    react_action_step tool now s = react_action_step tool2 now s ∧
    (react_action_step tool now s).should_continue = s.should_continue ∧
    (react_action_step tool now s).iteration_count = s.iteration_count + 1 ∧
    ∀ n ∈ availableToolNames, n.data <:+: (react_action_step tool now s).observation.data := by
  have hobs : executorObservation tool s
      = "Unknown action: " ++ s.action ++ ". Available actions: " ++ availableToolsRepr := by
    simp [executorObservation, hreg]
  have h1 : (react_action_step tool now s).observation
      = "Unknown action: " ++ s.action ++ ". Available actions: " ++ availableToolsRepr := by
    simp [react_action_step, hFA, hobs]
  refine ⟨h1, ?_, ?_, ?_, ?_⟩
  · simp [react_action_step, hFA, executorObservation, hreg]
  · simp [react_action_step, hFA]
  · simp [react_action_step, hFA]
  · intro n hn
    rw [h1, String.data_append]
    exact (names_listed_in_repr n hn).trans (List.suffix_append _ _).isInfix

/-- C7 witness: the hallucinated action `made_up_tool` yields the
unknown-action observation and the result is independent of the tool
oracle. -/
theorem unknown_action_self_corrects_witness :
    (react_action_step (fun _ _ => ToolResult.ok "ignored") "now" unknownActionState).observation
      = "Unknown action: made_up_tool. Available actions: " ++ availableToolsRepr ∧
    react_action_step (fun _ _ => ToolResult.ok "ignored") "now" unknownActionState
      = react_action_step (fun _ _ => ToolResult.exn "other") "now" unknownActionState ∧
    (react_action_step (fun _ _ => ToolResult.ok "ignored") "now" unknownActionState).iteration_count = 1 := by
  obtain ⟨h1, h2, _, h4, _⟩ :=
    unknown_action_self_corrects (fun _ _ => ToolResult.ok "ignored")
      (fun _ _ => ToolResult.exn "other") "now" unknownActionState
      (by decide) (by decide)
  exact ⟨by rw [h1]; rfl, h2, by rw [h4]; rfl⟩

/-- C8: when the reasoning model call raises on the first iteration, the
controller behaves as if the model produced `Final Answer` with an
explanatory thought, sets `should_continue = False`, transitions straight to
finalization with `iteration_count = 0` and empty history, executes no tool
(the run does not depend on the tool oracle), and still produces a final
textual response — the finalizer's own error path yields a non-empty
apology string. -/
theorem model_failure_finalizes (O : Oracles) (s0 : ReActState) (e : String)
    (h : O.model 0 = .exn e) :
    (runReactGraph O s0).iteration_count = 0 ∧
    (runReactGraph O s0).reasoning_history = [] ∧
    (runReactGraph O s0).should_continue = false ∧
    (react_reasoning_step O.jl (O.model 0) (initialize_react_state s0)).action
      = "Final Answer" ∧
    (react_reasoning_step O.jl (O.model 0) (initialize_react_state s0)).thought
      = "Error in reasoning: " ++ e ∧
    (react_reasoning_step O.jl (O.model 0) (initialize_react_state s0)).should_continue
      = false ∧
    (∀ tool2, runReactGraph { O with tool := tool2 } s0 = runReactGraph O s0) ∧
    (∀ e2, O.finalModel = .exn e2 → (runReactGraph O s0).final_response ≠ "") ∧
    (∀ c, O.finalModel = .ok c → (runReactGraph O s0).final_response = c) := by
  have hgraph : ∀ tool2 : Nat → String → JsonObj → ToolResult,
      runReactGraph { O with tool := tool2 } s0
        = update_react_session_context O.jl O.hasPN O.ctxTime
            (generate_final_response O.finalModel
              { initialize_react_state s0 with
                thought := "Error in reasoning: " ++ e
                action := "Final Answer"
                action_input := []
                observation := "Ready to provide final answer"
                should_continue := false }) := by
    intro tool2
    have hr : react_reasoning_step O.jl (O.model 0) (initialize_react_state s0)
        = { initialize_react_state s0 with
            thought := "Error in reasoning: " ++ e
            action := "Final Answer"
            action_input := []
            should_continue := false } := by
      rw [h]; rfl
    have hbody : reactLoopBody { O with tool := tool2 } 0 (initialize_react_state s0)
        = { initialize_react_state s0 with
            thought := "Error in reasoning: " ++ e
            action := "Final Answer"
            action_input := []
            observation := "Ready to provide final answer"
            should_continue := false } := by
      rw [reactLoopBody]
      show react_action_step (tool2 0) (O.stepTime 0)
        (react_reasoning_step O.jl (O.model 0) (initialize_react_state s0)) = _
      rw [hr]
      rfl
    have hloop : runReactLoop { O with tool := tool2 } 6 0 (initialize_react_state s0)
        = reactLoopBody { O with tool := tool2 } 0 (initialize_react_state s0) := by
      show runReactLoop { O with tool := tool2 } (5 + 1) 0 (initialize_react_state s0) = _
      rw [runReactLoop, hbody]
      rfl
    show update_react_session_context O.jl O.hasPN O.ctxTime
        (generate_final_response O.finalModel
          (runReactLoop { O with tool := tool2 } 6 0 (initialize_react_state s0))) = _
    rw [hloop, hbody]
  have hGO : runReactGraph O s0
      = update_react_session_context O.jl O.hasPN O.ctxTime
          (generate_final_response O.finalModel
            { initialize_react_state s0 with
              thought := "Error in reasoning: " ++ e
              action := "Final Answer"
              action_input := []
              observation := "Ready to provide final answer"
              should_continue := false }) := hgraph O.tool
  obtain ⟨hg1, hg2, hg3, _⟩ := generate_final_response_frame O.finalModel
    { initialize_react_state s0 with
      thought := "Error in reasoning: " ++ e
      action := "Final Answer"
      action_input := []
      observation := "Ready to provide final answer"
      should_continue := false }
  obtain ⟨hu1, hu2, hu3, _, hu5⟩ := update_react_session_context_frame O.jl O.hasPN O.ctxTime
    (generate_final_response O.finalModel
      { initialize_react_state s0 with
        thought := "Error in reasoning: " ++ e
        action := "Final Answer"
        action_input := []
        observation := "Ready to provide final answer"
        should_continue := false })
  refine ⟨by rw [hGO, hu2, hg2]; try rfl, by rw [hGO, hu3, hg3]; try rfl,
          by rw [hGO, hu1, hg1]; try rfl, by rw [h]; try rfl, by rw [h]; try rfl,
          by rw [h]; try rfl,
          fun tool2 => (hgraph tool2).trans hGO.symm, ?_, ?_⟩
  · intro e2 he2
    rw [hGO, hu5, he2]
    show "I analyzed your request using multiple reasoning steps, but encountered an error generating the final response: "
        ++ e2 ++ ". Please try rephrasing your question." ≠ ""
    intro hh
    have hd := congrArg String.data hh
    simp [String.data_append, List.append_eq_nil] at hd
  · intro c hc
    rw [hGO, hu5, hc]
    rfl

/-- C8 witness: a model that raises on iteration 1 together with a failing
finalizer model still yields a completed run with empty history and a
non-empty response. -/
theorem model_failure_finalizes_witness :
    (runReactGraph failingModelOracles stockState0).iteration_count = 0 ∧
    (runReactGraph failingModelOracles stockState0).reasoning_history = [] ∧
    (runReactGraph failingModelOracles stockState0).should_continue = false ∧
    (runReactGraph failingModelOracles stockState0).final_response ≠ "" := by
  obtain ⟨h1, h2, h3, _, _, _, _, h8, _⟩ :=
    model_failure_finalizes failingModelOracles stockState0 "rate limit exceeded" rfl
  exact ⟨h1, h2, h3, h8 "connection reset" rfl⟩

/-- C9 (amended): the Session Context Updater is a pure function of the
completed `reasoning_history` and `iteration_count` (and the current time):
it leaves every field of the run state unchanged except `session_context`,
which it does not leave unchanged but replaces with the freshly built
context mapping (ordered non-`Final Answer` actions used, iteration count,
step count, completion time, and the best-effort `product_name` scan). -/
theorem session_updater_pure_function (jl : String → Option JsonObj)
    (hasPN : JsonObj → Bool) (now : String) (s : ReActState) :
    (update_react_session_context jl hasPN now s).user_message = s.user_message ∧
    (update_react_session_context jl hasPN now s).thought = s.thought ∧
    (update_react_session_context jl hasPN now s).action = s.action ∧
    (update_react_session_context jl hasPN now s).action_input = s.action_input ∧
    (update_react_session_context jl hasPN now s).observation = s.observation ∧
    (update_react_session_context jl hasPN now s).reasoning_history = s.reasoning_history ∧
    (update_react_session_context jl hasPN now s).iteration_count = s.iteration_count ∧
    (update_react_session_context jl hasPN now s).max_iterations = s.max_iterations ∧
    (update_react_session_context jl hasPN now s).should_continue = s.should_continue ∧
    (update_react_session_context jl hasPN now s).final_response = s.final_response ∧
    (update_react_session_context jl hasPN now s).session_context
      = reactSessionUpdates jl hasPN now s.reasoning_history s.iteration_count := by
  simp [update_react_session_context]

/-- C9 counterexample: the updater overwrites the incoming
`session_context` — the keys of the field before and after the call
differ, refuting the claim that every field of the run state, including the
incoming session context, is left unchanged. -/
theorem session_context_replaced :
    ((update_react_session_context jlNone (fun _ => false) "context time" stockState0).session_context.map
        Prod.fst) = ["last_react_reasoning"] ∧
    stockState0.session_context.map Prod.fst = ["prior"] ∧
    ((update_react_session_context jlNone (fun _ => false) "context time" stockState0).session_context.map
        Prod.fst) ≠ stockState0.session_context.map Prod.fst := by
  exact ⟨by decide, by decide, by decide⟩

/-- C10: in the run output, `tools_used` equals the ordered list of the
`action` fields of the reasoning trace (duplicates preserved, hallucinated
unknown actions included, since every non-sentinel step is appended), and
it never contains `Final Answer`, because the sentinel step is never
appended to the history. -/
theorem tools_used_matches_trace (O : Oracles) (message : String)
    (sctx : List (String × PyVal)) :
    (process_user_message_react O message sctx).tools_used
      = (process_user_message_react O message sctx).reasoning_trace.map (fun st => st.action) ∧
    "Final Answer" ∉ (process_user_message_react O message sctx).tools_used := by
  simp only [process_user_message_react]
  have hacts : ∀ st ∈ (runReactGraph O
      { user_message := message, thought := "", action := "", action_input := [],
        observation := "", reasoning_history := [], iteration_count := 0,
        max_iterations := 5, should_continue := false, final_response := "",
        session_context := sctx }).reasoning_history, st.action ≠ "Final Answer" := by
    intro st hst
    simp only [runReactGraph] at hst
    rw [(update_react_session_context_frame _ _ _ _).2.2.1,
        (generate_final_response_frame _ _).2.2.1] at hst
    exact runReactLoop_actions O _ 0 _ (by simp [initialize_react_state]) st hst
  have hfilter : ((runReactGraph O
      { user_message := message, thought := "", action := "", action_input := [],
        observation := "", reasoning_history := [], iteration_count := 0,
        max_iterations := 5, should_continue := false, final_response := "",
        session_context := sctx }).reasoning_history.filter
        (fun st => st.action != "Final Answer"))
      = (runReactGraph O
      { user_message := message, thought := "", action := "", action_input := [],
        observation := "", reasoning_history := [], iteration_count := 0,
        max_iterations := 5, should_continue := false, final_response := "",
        session_context := sctx }).reasoning_history :=
    List.filter_eq_self.mpr (fun a ha => bne_iff_ne.mpr (hacts a ha))
  refine ⟨by rw [hfilter], ?_⟩
  rw [hfilter]
  intro hmem
  obtain ⟨st, hst, hFA⟩ := List.mem_map.mp hmem
  exact hacts st hst hFA

end IimsAgent
